import Mathlib

/-!
Shallow embedding of `src/analysis.py`: two pandas-based helper functions,
`summary_statistics` and `extreme_rank_countries`, operating on tabular
datasets.

Modelling conventions:
* A pandas `DataFrame` is an ordered association list of named columns; a
  column is either a numeric column (values in `ℚ`, modelling floats exactly
  on the inputs of interest, with no missing values) or an object (string)
  column, mirroring pandas' per-column dtypes.
* `df['rank_col2_calc'] = ...` mutates the caller's frame, so
  `extreme_rank_countries` is embedded as a state transformer returning the
  post-call frame together with the result; `summary_statistics` performs no
  assignment and returns its input frame unchanged as the post-state.
* Fallible pandas operations are embedded with `Except`:
  - the explicit `raise ValueError(f"{rank_col2} not found in dataframe")`;
  - the `KeyError` raised by `df[['cname', rank_col1, 'rank_col2_calc']]`
    when a selected label is absent;
  - the `TypeError` raised by `temp[rank_col1] - temp['rank_col2_calc']`
    when `rank_col1` is an object column;
  - the `ValueError("Cannot describe a DataFrame without columns")` raised
    by `DataFrame.describe` on a zero-column selection.
* `Series.rank(ascending=False)` (method='average') assigns to each value
  (number of strictly greater values) + (number of tied values + 1) / 2.
* `sort_values('rank_difference', ascending=False)` is embedded as a sort by
  the lexicographic order (rank_difference descending, original positional
  index ascending).  pandas' `nargsort` realises descending order by
  reversing the array, arg-sorting ascending, and reversing the resulting
  indexer, so with a stable arg-sort kind ties end up in original row order;
  numpy's default sort on arrays below its small-array threshold is
  insertion sort (stable), which this embedding matches exactly.
* `describe()` reports the sample standard deviation, an irrational number
  in general; since no claim inspects its value, the embedding stores the
  sample variance (field `stdSq`), of which pandas prints the square root.
  `describe()` on an object-only selection yields the count/unique/top/freq
  table instead of the eight numeric measures; the embedding records that
  branch with the `Describe.objects` constructor (count and unique; the
  top/freq cells are not inspected by any property considered here).
-/

/-- A single cell value: pandas columns here are numeric (float) or object
(string) typed. -/
inductive Cell where
  | num (q : ℚ)
  | str (s : String)
deriving DecidableEq

/-- A pandas column: a numeric (float) column or an object (string) column,
mirroring the per-column dtype. No missing values are modelled. -/
inductive Col where
  | nums (xs : List ℚ)
  | strs (ss : List String)
deriving DecidableEq

/-- Number of rows of a column. -/
def Col.length : Col → ℕ
  | .nums xs => xs.length
  | .strs ss => ss.length

/-- The cells of a column, in row order. -/
def Col.cells : Col → List Cell
  | .nums xs => xs.map Cell.num
  | .strs ss => ss.map Cell.str

/-- Whether a column is numeric (`Bool`-valued so witnesses can `decide`). -/
def Col.isNums : Col → Bool
  | .nums _ => true
  | .strs _ => false

/-- The numeric values of a column (empty for an object column; only ever
used on columns known to be numeric). -/
def Col.asNums : Col → List ℚ
  | .nums xs => xs
  | .strs _ => []

/-- A pandas `DataFrame`: an ordered association list of named columns.
Row labels are the default `RangeIndex` (positions). -/
structure DataFrame where
  cols : List (String × Col)
deriving DecidableEq

/-- `df.columns`. -/
def DataFrame.columns (df : DataFrame) : List String :=
  df.cols.map Prod.fst

/-- Look a column up by name (first match, as with unique pandas labels). -/
def DataFrame.getCol (df : DataFrame) (name : String) : Option Col :=
  (df.cols.find? fun p => p.1 = name).map Prod.snd

/-- Column lookup with a default (only ever used under a membership fact). -/
def DataFrame.getColD (df : DataFrame) (name : String) : Col :=
  (df.getCol name).getD (.nums [])

/-- `df[name] = col`: replace the column in place when the label exists,
otherwise append it at the end, as pandas column assignment does. -/
def DataFrame.setCol (df : DataFrame) (name : String) (c : Col) : DataFrame :=
  if name ∈ df.columns then
    ⟨df.cols.map fun p => if p.1 = name then (name, c) else p⟩
  else
    ⟨df.cols ++ [(name, c)]⟩

/-- `len(df)`: the number of rows (length of the first column; pandas keeps
all columns the same length). -/
def DataFrame.nrows (df : DataFrame) : ℕ :=
  match df.cols with
  | [] => 0
  | p :: _ => p.2.length

/-- The pandas invariant: every column has the frame's row count. -/
def DataFrame.Wf (df : DataFrame) : Prop :=
  ∀ p ∈ df.cols, Col.length p.2 = df.nrows

instance (df : DataFrame) : Decidable df.Wf := by
  unfold DataFrame.Wf; infer_instance

/-- Errors surfaced by the two functions (Python exception classes). -/
inductive PdError where
  /-- The explicit `ValueError(f"{rank_col2} not found in dataframe")`;
  the spec's `InvalidColumn` error class. -/
  | invalidColumn (msg : String)
  /-- `KeyError` from selecting absent labels in `df[[...]]`. -/
  | keyError (missing : List String)
  /-- `TypeError` from subtracting a float column from an object column. -/
  | typeError (msg : String)
  /-- `ValueError("Cannot describe a DataFrame without columns")` raised by
  `DataFrame.describe` when the selection has no columns. -/
  | emptyDescribe
deriving DecidableEq

/-- One row of `df[available_vars].describe().T` for a numeric column: the
eight measures `count, mean, std, min, 25%, 50%, 75%, max`.  `none` models
pandas' `NaN` cells (empty column, or `std` of fewer than two values).
`stdSq` holds the sample variance; pandas' `std` cell is its square root,
which no claim inspects. -/
structure StatsRow where
  count : ℕ
  mean : Option ℚ
  stdSq : Option ℚ
  min : Option ℚ
  q25 : Option ℚ
  q50 : Option ℚ
  q75 : Option ℚ
  max : Option ℚ
deriving DecidableEq

/-- One row of `describe().T` for an object-only selection: pandas reports
`count, unique, top, freq` there; only the first two are modelled, as no
property considered here inspects that branch's cells. -/
structure ObjStatsRow where
  count : ℕ
  unique : ℕ
deriving DecidableEq

/-- numpy's default linear-interpolation percentile of a sorted list:
position `h = q * (n - 1)`, interpolated between the neighbouring order
statistics. -/
def percentileLinear (sorted : List ℚ) (q : ℚ) : ℚ :=
  let h : ℚ := q * ((sorted.length : ℚ) - 1)
  let i : ℕ := h.floor.toNat
  let a : ℚ := sorted.getD i 0
  let b : ℚ := sorted.getD (i + 1) a
  a + (h - (i : ℚ)) * (b - a)

/-- `Series.describe()` for a numeric column (no missing values modelled, so
`count` is the length).  Mean is `sum / n`; `stdSq` is the sample variance
(`n - 1` denominator); quartiles use numpy's linear interpolation. -/
def describeCol (xs : List ℚ) : StatsRow :=
  let n : ℕ := xs.length
  let s : List ℚ := List.insertionSort (· ≤ ·) xs
  let m : ℚ := xs.sum / (n : ℚ)
  { count := n
    mean := if n = 0 then none else some m
    stdSq := if n < 2 then none else
      some ((xs.map fun x => (x - m) ^ 2).sum / ((n : ℚ) - 1))
    min := s.head?
    q25 := if n = 0 then none else some (percentileLinear s (1 / 4))
    q50 := if n = 0 then none else some (percentileLinear s (1 / 2))
    q75 := if n = 0 then none else some (percentileLinear s (3 / 4))
    max := s.getLast? }

/-- `Series.describe()` counts for an object column. -/
def describeObjCol (c : Col) : ObjStatsRow :=
  match c with
  | .nums xs => ⟨xs.length, xs.dedup.length⟩
  | .strs ss => ⟨ss.length, ss.dedup.length⟩

instance {ε α : Type} [DecidableEq ε] [DecidableEq α] : DecidableEq (Except ε α) := fun a b =>
  match a, b with
  | .ok x, .ok y =>
      if h : x = y then .isTrue (by rw [h]) else .isFalse (by simp [h])
  | .error x, .error y =>
      if h : x = y then .isTrue (by rw [h]) else .isFalse (by simp [h])
  | .ok _, .error _ => .isFalse (by simp)
  | .error _, .ok _ => .isFalse (by simp)

/-- Result of `DataFrame.describe().T`: rows keyed by column name.  With at
least one numeric column selected, pandas keeps only the numeric columns and
reports the eight numeric measures; with only object columns it reports the
object measures instead. -/
inductive Describe where
  | numeric (rows : List (String × StatsRow))
  | objects (rows : List (String × ObjStatsRow))
deriving DecidableEq

/-- The row labels of a `describe().T` result. -/
def describeNames : Describe → List String
  | .numeric rows => rows.map Prod.fst
  | .objects rows => rows.map Prod.fst

/-- `sel.describe().T` on a selected sub-frame: raises on a zero-column
selection; otherwise restricts to numeric columns when any exist. -/
def describeT (sel : List (String × Col)) : Except PdError Describe :=
  if sel.isEmpty then .error .emptyDescribe
  else
    let numsSel := sel.filterMap fun p =>
      match p.2 with
      | .nums xs => some (p.1, xs)
      | .strs _ => none
    if numsSel.isEmpty then
      .ok (.objects (sel.map fun p => (p.1, describeObjCol p.2)))
    else
      .ok (.numeric (numsSel.map fun p => (p.1, describeCol p.2)))

/-- `set(vars_of_interest) - set(df.columns)` (a Python `set`, so a
`Finset`). -/
def missingVars (df : DataFrame) (vars_of_interest : List String) : Finset String :=
  (vars_of_interest.filter fun v => v ∉ df.columns).toFinset

/-- `available_vars = [v for v in vars_of_interest if v in df.columns]`. -/
def summaryAvailable (df : DataFrame) (vars_of_interest : List String) : List String :=
  vars_of_interest.filter fun v => v ∈ df.columns

/-- The selected sub-frame `df[available_vars]` (column order follows
`vars_of_interest`). -/
def summarySel (df : DataFrame) (vars_of_interest : List String) : List (String × Col) :=
  (summaryAvailable df vars_of_interest).map fun v => (v, df.getColD v)

/-- The available column names whose columns are numeric: the row labels of
the numeric `describe` output. -/
def numericAvailable (df : DataFrame) (vars_of_interest : List String) : List String :=
  (summaryAvailable df vars_of_interest).filter fun v => (df.getColD v).isNums

/-- Full outcome of a `summary_statistics` call: the post-call state of the
caller's frame, the console warnings emitted (each the set of missing
column names printed), and the returned table or exception. -/
structure SummaryResult where
  post : DataFrame
  warnings : List (Finset String)
  result : Except PdError Describe
deriving DecidableEq

/-- Embedding of `summary_statistics` (src/analysis.py lines 31-35):
compute the missing names, print one warning if any are missing, select the
available columns in request order, and return `describe().T` of the
selection.  The function body never assigns into `df`, so the post-state is
the input frame itself. -/
def summary_statistics (df : DataFrame) (vars_of_interest : List String) : SummaryResult :=
  let missing := missingVars df vars_of_interest
  { post := df
    warnings := if missing = ∅ then [] else [missing]
    result := describeT (summarySel df vars_of_interest) }

/-- `Series.rank(ascending=False)` value for `x` within `xs`
(method='average', the default): the count of strictly greater values plus
half of (tied count + 1). -/
def rkOf {α : Type} [LinearOrder α] (xs : List α) (x : α) : ℚ :=
  (xs.countP fun y => decide (x < y) : ℚ) +
    ((xs.countP fun y => decide (y = x) : ℚ) + 1) / 2

/-- `Series.rank(ascending=False)` for a whole column: descending fractional
(average) ranks. -/
def fractionalRankDesc {α : Type} [LinearOrder α] (xs : List α) : List ℚ :=
  xs.map (rkOf xs)

/-- `df[rank_col2].rank(ascending=False)`: pandas ranks numeric columns
numerically and object columns by their (string) ordering. -/
def Col.rankDesc : Col → List ℚ
  | .nums xs => fractionalRankDesc xs
  | .strs ss => fractionalRankDesc ss

/-- One row of the result of `extreme_rank_countries`: original positional
index (the row label pandas carries through `sort_values`/`head`), the
`cname` cell, the `rank_col1` value, the derived `rank_col2_calc` rank, and
`rank_difference`. -/
structure ResultRow where
  idx : ℕ
  cname : Cell
  rank1 : ℚ
  rank_col2_calc : ℚ
  rank_difference : ℚ
deriving DecidableEq

/-- Rows of the working frame `temp` with
`temp['rank_difference'] = temp[rank_col1] - temp['rank_col2_calc']`. -/
def buildRows (cn : List Cell) (r1 rc : List ℚ) : List ResultRow :=
  (List.range (Nat.min cn.length (Nat.min r1.length rc.length))).map fun i =>
    { idx := i
      cname := cn.getD i (.num 0)
      rank1 := r1.getD i 0
      rank_col2_calc := rc.getD i 0
      rank_difference := r1.getD i 0 - rc.getD i 0 }

/-- The comparison used by this embedding of
`temp.sort_values('rank_difference', ascending=False)`: `rank_difference`
descending; a tie keeps the row with the smaller original position first.
This original-order tie-break is what pandas' descending `nargsort`
(reverse, arg-sort ascending, reverse the indexer) produces when the
underlying arg-sort is stable, which numpy's default `kind='quicksort'`
only is for arrays below its small-array insertion-sort threshold.  Above
that threshold the code guarantees no tie order at all — the source passes
no `kind=` argument — so this relation over-determines the code there;
that divergence from the spec's stable-sort requirement is recorded as a
code bug, with `dfTie` below as the failing input. -/
def rowLe (a b : ResultRow) : Prop :=
  b.rank_difference < a.rank_difference ∨
    (a.rank_difference = b.rank_difference ∧ a.idx ≤ b.idx)

instance : DecidableRel rowLe := fun a b => by
  unfold rowLe; infer_instance

instance : IsTotal ResultRow rowLe := by
  constructor
  intro a b
  rcases lt_trichotomy a.rank_difference b.rank_difference with h | h | h
  · exact Or.inr (Or.inl h)
  · rcases Nat.le_total a.idx b.idx with hi | hi
    · exact Or.inl (Or.inr ⟨h, hi⟩)
    · exact Or.inr (Or.inr ⟨h.symm, hi⟩)
  · exact Or.inl (Or.inl h)

instance : IsTrans ResultRow rowLe := by
  constructor
  intro a b c hab hbc
  rcases hab with hab | ⟨hab, hab2⟩
  · rcases hbc with hbc | ⟨hbc, _⟩
    · exact Or.inl (hbc.trans hab)
    · exact Or.inl (by rw [← hbc]; exact hab)
  · rcases hbc with hbc | ⟨hbc, hbc2⟩
    · exact Or.inl (by rw [hab]; exact hbc)
    · exact Or.inr ⟨hab.trans hbc, hab2.trans hbc2⟩

/-- The rows of `temp` (the projection of the mutated frame `df1` onto
`cname`, `rank_col1` and `rank_col2_calc`, with `rank_difference`). -/
def extremeRows (df1 : DataFrame) (rank_col1 : String) : List ResultRow :=
  buildRows (df1.getColD "cname").cells
    (df1.getColD rank_col1).asNums
    (df1.getColD "rank_col2_calc").asNums

/-- Lines 75-77 of `extreme_rank_countries`, run on the already-mutated
frame `df1` (which holds the freshly assigned `rank_col2_calc` column):
select `['cname', rank_col1, 'rank_col2_calc']` (`KeyError` when a label is
absent), subtract (`TypeError` when `rank_col1` is an object column), sort
by `rank_difference` descending and take the first `top_n` rows.  The sort
is embedded as a stable descending sort (see `rowLe`); the code's default
`kind='quicksort'` coincides with it below numpy's small-array threshold
but guarantees no particular tie order above it. -/
def extremeBody (df1 : DataFrame) (rank_col1 : String) (top_n : ℕ) :
    Except PdError (List ResultRow) :=
  if "cname" ∈ df1.columns ∧ rank_col1 ∈ df1.columns ∧ "rank_col2_calc" ∈ df1.columns then
    match df1.getColD rank_col1 with
    | .strs _ => .error (.typeError "unsupported operand type for -")
    | .nums _ =>
        .ok (((extremeRows df1 rank_col1).insertionSort rowLe).take top_n)
  else
    .error (.keyError
      (["cname", rank_col1, "rank_col2_calc"].filter fun v => v ∉ df1.columns))

/-- The frame after `df['rank_col2_calc'] = df[rank_col2].rank(ascending=False)`. -/
def workingFrame (df : DataFrame) (rank_col2 : String) : DataFrame :=
  df.setCol "rank_col2_calc" (.nums (df.getColD rank_col2).rankDesc)

/-- Full outcome of an `extreme_rank_countries` call: the post-call state of
the caller's frame (the function assigns a column into it) and the returned
table or exception. -/
structure ExtremeResult where
  post : DataFrame
  result : Except PdError (List ResultRow)
deriving DecidableEq

/-- Embedding of `extreme_rank_countries` (src/analysis.py lines 72-77):
validate `rank_col2`, assign the derived rank column into the caller's
frame, then build, sort and truncate the working projection. -/
def extreme_rank_countries (df : DataFrame) (rank_col1 rank_col2 : String)
    (top_n : ℕ) : ExtremeResult :=
  if rank_col2 ∈ df.columns then
    { post := workingFrame df rank_col2
      result := extremeBody (workingFrame df rank_col2) rank_col1 top_n }
  else
    { post := df
      result := .error (.invalidColumn (rank_col2 ++ " not found in dataframe")) }

/-- The spec's worked example: `{cname: [A,B,C], rank1: [1,2,3], rank2: [30,10,20]}`. -/
def exD : DataFrame :=
  ⟨[("cname", .strs ["A", "B", "C"]), ("rank1", .nums [1, 2, 3]),
    ("rank2", .nums [30, 10, 20])]⟩

/-- `exD` after `extreme_rank_countries(exD, "rank1", "rank2", ...)`: the
derived rank column has been assigned into the caller's frame. -/
def exDPost : DataFrame :=
  ⟨[("cname", .strs ["A", "B", "C"]), ("rank1", .nums [1, 2, 3]),
    ("rank2", .nums [30, 10, 20]), ("rank_col2_calc", .nums [1, 3, 2])]⟩

/-- A frame with one numeric and one object column, for exercising the
numeric-only restriction of `describe`. -/
def dfMix : DataFrame :=
  ⟨[("x", .nums [1, 2]), ("c", .strs ["a", "b"])]⟩

/-- A one-column numeric frame. -/
def dfX : DataFrame :=
  ⟨[("x", .nums [1])]⟩

/-- A one-row country frame used by concrete witnesses. -/
def exW : DataFrame :=
  ⟨[("cname", .strs ["A"]), ("r1", .nums [1]), ("r2", .nums [2])]⟩

/-- `exW` after a successful `extreme_rank_countries(exW, "r1", "r2", _)`. -/
def exWPost : DataFrame :=
  ⟨[("cname", .strs ["A"]), ("r1", .nums [1]), ("r2", .nums [2]),
    ("rank_col2_calc", .nums [1])]⟩

/-- Twenty rows — above numpy's small-array insertion-sort threshold — with
constant columns: every `rank2` value is 7, so every derived rank is the
same averaged rank, and every `rank1` value is 1, so all twenty
`rank_difference` values are tied; the returned row order is then decided
entirely by `sort_values`' tie handling, for which the code's default
unstable quicksort gives no guarantee. -/
def dfTie : DataFrame :=
  ⟨[("cname", .strs (List.replicate 20 "X")),
    ("rank1", .nums (List.replicate 20 1)),
    ("rank2", .nums (List.replicate 20 7))]⟩

lemma find?_map_replace (l : List (String × Col)) (n m : String) (c : Col)
    (h : m ≠ n) :
    (l.map fun p => if p.1 = n then (n, c) else p).find? (fun p => decide (p.1 = m)) =
      l.find? fun p => decide (p.1 = m) := by
  have hnm : ¬((n : String) = m) := fun e => h e.symm
  induction l with
  | nil => rfl
  | cons p t ih =>
    simp only [List.map_cons]
    by_cases hp : p.1 = n
    · rw [List.find?_cons_of_neg _ (by rw [if_pos hp]; simp [hnm]),
        List.find?_cons_of_neg _ (by simp [hp, hnm]), ih]
    · by_cases hm : p.1 = m
      · rw [List.find?_cons_of_pos _ (by rw [if_neg hp]; simp [hm]),
          List.find?_cons_of_pos _ (by simp [hm]), if_neg hp]
      · rw [List.find?_cons_of_neg _ (by rw [if_neg hp]; simp [hm]),
          List.find?_cons_of_neg _ (by simp [hm]), ih]

lemma find?_map_replace_self (l : List (String × Col)) (n : String) (c : Col)
    (hmem : ∃ p ∈ l, p.1 = n) :
    (l.map fun p => if p.1 = n then (n, c) else p).find? (fun p => decide (p.1 = n)) =
      some (n, c) := by
  induction l with
  | nil => simp at hmem
  | cons p t ih =>
    simp only [List.map_cons]
    by_cases hp : p.1 = n
    · rw [if_pos hp, List.find?_cons_of_pos _ (by simp)]
    · rw [if_neg hp, List.find?_cons_of_neg _ (by simp [hp])]
      refine ih ?_
      rcases hmem with ⟨q, hq, hq1⟩
      rcases List.mem_cons.mp hq with hq2 | hq2
      · exact absurd (hq2 ▸ hq1) hp
      · exact ⟨q, hq2, hq1⟩

lemma mem_columns_iff (df : DataFrame) (n : String) :
    n ∈ df.columns ↔ ∃ p ∈ df.cols, p.1 = n := by
  unfold DataFrame.columns
  simp only [List.mem_map]

lemma getCol_setCol_ne (df : DataFrame) (n m : String) (c : Col) (h : m ≠ n) :
    (df.setCol n c).getCol m = df.getCol m := by
  have hnm : ¬((n : String) = m) := fun e => h e.symm
  unfold DataFrame.setCol DataFrame.getCol
  by_cases hmem : n ∈ df.columns
  · simp only [hmem, if_true]
    rw [find?_map_replace df.cols n m c h]
  · simp only [hmem, if_false]
    rw [List.find?_append]
    have h1 : List.find? (fun p => decide (p.1 = m)) [(n, c)] = none := by
      simp [List.find?, hnm]
    rw [h1]
    cases df.cols.find? fun p => decide (p.1 = m) <;> rfl

lemma getCol_setCol_self (df : DataFrame) (n : String) (c : Col) :
    (df.setCol n c).getCol n = some c := by
  unfold DataFrame.setCol DataFrame.getCol
  by_cases hmem : n ∈ df.columns
  · simp only [hmem, if_true]
    rw [find?_map_replace_self df.cols n c ((mem_columns_iff df n).mp hmem)]
    rfl
  · simp only [hmem, if_false]
    rw [List.find?_append]
    have hnone : List.find? (fun p => decide (p.1 = n)) df.cols = none := by
      rw [List.find?_eq_none]
      intro p hp
      simp only [decide_eq_true_eq]
      exact fun h1 => hmem ((mem_columns_iff df n).mpr ⟨p, hp, h1⟩)
    simp [hnone, List.find?]

lemma getColD_setCol_ne (df : DataFrame) (n m : String) (c : Col) (h : m ≠ n) :
    (df.setCol n c).getColD m = df.getColD m := by
  unfold DataFrame.getColD
  rw [getCol_setCol_ne df n m c h]

lemma getColD_setCol_self (df : DataFrame) (n : String) (c : Col) :
    (df.setCol n c).getColD n = c := by
  unfold DataFrame.getColD
  rw [getCol_setCol_self]
  rfl

lemma mem_columns_setCol_of_mem (df : DataFrame) (n m : String) (c : Col)
    (h : m ∈ df.columns) : m ∈ (df.setCol n c).columns := by
  rw [mem_columns_iff] at h ⊢
  obtain ⟨p, hp, hp1⟩ := h
  unfold DataFrame.setCol
  by_cases hmem : n ∈ df.columns
  · simp only [hmem, if_true]
    by_cases hq : p.1 = n
    · exact ⟨(n, c), List.mem_map.mpr ⟨p, hp, by simp [hq]⟩, hq ▸ hp1⟩
    · exact ⟨p, List.mem_map.mpr ⟨p, hp, by simp [hq]⟩, hp1⟩
  · simp only [hmem, if_false]
    exact ⟨p, List.mem_append.mpr (Or.inl hp), hp1⟩

lemma mem_columns_setCol_self (df : DataFrame) (n : String) (c : Col) :
    n ∈ (df.setCol n c).columns := by
  rw [mem_columns_iff]
  unfold DataFrame.setCol
  by_cases hmem : n ∈ df.columns
  · simp only [hmem, if_true]
    obtain ⟨p, hp, hp1⟩ := (mem_columns_iff df n).mp hmem
    exact ⟨(n, c), List.mem_map.mpr ⟨p, hp, by simp [hp1]⟩, rfl⟩
  · simp only [hmem, if_false]
    exact ⟨(n, c), List.mem_append.mpr (Or.inr (by simp)), rfl⟩

lemma setCol_idem (df : DataFrame) (n : String) (c : Col) :
    (df.setCol n c).setCol n c = df.setCol n c := by
  have hmem : n ∈ (df.setCol n c).columns := mem_columns_setCol_self df n c
  unfold DataFrame.setCol at hmem ⊢
  by_cases h : n ∈ df.columns
  · simp only [h, if_true] at hmem ⊢
    simp only [hmem, if_true]
    congr 1
    rw [List.map_map]
    refine List.map_congr_left fun p _ => ?_
    by_cases hp : p.1 = n <;> simp [hp]
  · simp only [h, if_false] at hmem ⊢
    simp only [hmem, if_true]
    congr 1
    have h1 : (df.cols.map fun p => if p.1 = n then (n, c) else p) = df.cols := by
      have h2 : (df.cols.map fun p => if p.1 = n then (n, c) else p) = df.cols.map id := by
        refine List.map_congr_left fun p hp => ?_
        have hpn : p.1 ≠ n := fun h1 => h ((mem_columns_iff df n).mpr ⟨p, hp, h1⟩)
        simp [hpn]
      rw [h2, List.map_id]
    rw [List.map_append, h1]
    congr 1
    simp

lemma length_rankDesc (c : Col) : (Col.rankDesc c).length = c.length := by
  cases c <;> simp [Col.rankDesc, Col.length, fractionalRankDesc]

lemma length_cells (c : Col) : (Col.cells c).length = c.length := by
  cases c <;> simp [Col.cells, Col.length]

lemma length_asNums_of_isNums (c : Col) (h : c.isNums = true) :
    (Col.asNums c).length = c.length := by
  cases c
  · simp [Col.asNums, Col.length]
  · simp [Col.isNums] at h

lemma cols_ne_nil_of_mem (df : DataFrame) (n : String) (h : n ∈ df.columns) :
    df.cols ≠ [] := by
  intro he
  rw [mem_columns_iff] at h
  rcases h with ⟨p, hp, _⟩
  rw [he] at hp
  cases hp

lemma nrows_setCol (df : DataFrame) (n : String) (c : Col)
    (hne : df.cols ≠ []) (hl : c.length = df.nrows) :
    (df.setCol n c).nrows = df.nrows := by
  unfold DataFrame.setCol
  by_cases hmem : n ∈ df.columns
  · simp only [hmem, if_true]
    cases hcols : df.cols with
    | nil => exact absurd hcols hne
    | cons p t =>
      by_cases hp : p.1 = n
      · simp only [DataFrame.nrows, hcols, List.map_cons, if_pos hp]
        rw [hl]
        simp [DataFrame.nrows, hcols]
      · simp [DataFrame.nrows, hcols, if_neg hp]
  · simp only [hmem, if_false]
    cases hcols : df.cols with
    | nil => exact absurd hcols hne
    | cons p t => simp [DataFrame.nrows, hcols]

lemma Wf_setCol (df : DataFrame) (n : String) (c : Col)
    (hwf : df.Wf) (hne : df.cols ≠ []) (hl : c.length = df.nrows) :
    (df.setCol n c).Wf := by
  intro p hp
  rw [nrows_setCol df n c hne hl]
  unfold DataFrame.setCol at hp
  by_cases hmem : n ∈ df.columns
  · simp only [hmem, if_true] at hp
    obtain ⟨q, hq, hq1⟩ := List.mem_map.mp hp
    by_cases hqn : q.1 = n
    · rw [if_pos hqn] at hq1
      rw [← hq1]
      exact hl
    · rw [if_neg hqn] at hq1
      rw [← hq1]
      exact hwf q hq
  · simp only [hmem, if_false] at hp
    rcases List.mem_append.mp hp with hp | hp
    · exact hwf p hp
    · simp only [List.mem_singleton] at hp
      rw [hp]
      exact hl

lemma getColD_length (df : DataFrame) (m : String)
    (hwf : df.Wf) (hm : m ∈ df.columns) :
    (df.getColD m).length = df.nrows := by
  obtain ⟨p, hp, hp1⟩ := (mem_columns_iff df m).mp hm
  have hfind : ∃ q, df.cols.find? (fun r => decide (r.1 = m)) = some q := by
    have : (df.cols.find? fun r => decide (r.1 = m)).isSome := by
      rw [List.find?_isSome]
      exact ⟨p, hp, by simp [hp1]⟩
    exact Option.isSome_iff_exists.mp this
  obtain ⟨q, hq⟩ := hfind
  have hqmem : q ∈ df.cols := List.mem_of_find?_eq_some hq
  unfold DataFrame.getColD DataFrame.getCol
  rw [hq]
  exact hwf q hqmem

lemma length_buildRows (cn : List Cell) (r1 rc : List ℚ) :
    (buildRows cn r1 rc).length = Nat.min cn.length (Nat.min r1.length rc.length) := by
  simp [buildRows]

lemma extremeBody_ne_invalidColumn (df1 : DataFrame) (c1 : String) (n : ℕ)
    (msg : String) :
    extremeBody df1 c1 n ≠ .error (.invalidColumn msg) := by
  unfold extremeBody
  by_cases h : "cname" ∈ df1.columns ∧ c1 ∈ df1.columns ∧ "rank_col2_calc" ∈ df1.columns
  · rw [if_pos h]
    cases df1.getColD c1 <;> simp
  · rw [if_neg h]
    simp

/-- C10: when `rank_col2` is absent the call fails with the `InvalidColumn`
(`ValueError`) error before any other step runs; in particular the caller's
frame is returned exactly unchanged (the presence check on line 72 precedes
the column assignment on line 74). -/
theorem extreme_error_atomic (df : DataFrame) (rank_col1 rank_col2 : String)
    (top_n : ℕ) (h : rank_col2 ∉ df.columns) :
    extreme_rank_countries df rank_col1 rank_col2 top_n =
      ⟨df, .error (.invalidColumn (rank_col2 ++ " not found in dataframe"))⟩ := by
  unfold extreme_rank_countries
  rw [if_neg h]

theorem extreme_error_atomic_witness :
    "zz" ∉ exD.columns ∧
    extreme_rank_countries exD "rank1" "zz" 5 =
      ⟨exD, .error (.invalidColumn ("zz" ++ " not found in dataframe"))⟩ :=
  ⟨by decide, extreme_error_atomic exD "rank1" "zz" 5 (by decide)⟩

/-- C2: `extreme_rank_countries` fails with the `InvalidColumn`
(`ValueError`) error if and only if `rank_col2` is not a column of the
frame; the `Except` result carries no table on that failure. -/
theorem extreme_invalidColumn_iff (df : DataFrame) (rank_col1 rank_col2 : String)
    (top_n : ℕ) :
    (extreme_rank_countries df rank_col1 rank_col2 top_n).result =
        .error (.invalidColumn (rank_col2 ++ " not found in dataframe")) ↔
      rank_col2 ∉ df.columns := by
  constructor
  · intro h hmem
    unfold extreme_rank_countries at h
    rw [if_pos hmem] at h
    exact extremeBody_ne_invalidColumn _ rank_col1 top_n _ h
  · intro h
    unfold extreme_rank_countries
    rw [if_neg h]

theorem extreme_invalidColumn_iff_witness :
    (extreme_rank_countries exD "rank1" "zz" 3).result =
      .error (.invalidColumn ("zz" ++ " not found in dataframe")) :=
  (extreme_invalidColumn_iff exD "rank1" "zz" 3).mpr (by decide)

/-- C1 counterexample: on the spec's own example frame,
`extreme_rank_countries` adds the derived `rank_col2_calc` column to the
caller's frame itself, so the frame after the call does not contain exactly
the columns it contained before. -/
theorem extreme_mutates_counterexample :
    (extreme_rank_countries exD "rank1" "rank2" 2).post.columns =
        ["cname", "rank1", "rank2", "rank_col2_calc"] ∧
    exD.columns = ["cname", "rank1", "rank2"] ∧
    (extreme_rank_countries exD "rank1" "rank2" 2).post ≠ exD := by
  refine ⟨by decide, by decide, ?_⟩
  intro h
  have h2 : (extreme_rank_countries exD "rank1" "rank2" 2).post.cols.length =
      exD.cols.length := by rw [h]
  revert h2
  decide

/-- C1 amended: `summary_statistics` leaves the caller's frame unchanged,
and a call to `extreme_rank_countries` changes the caller's frame in at
most the `rank_col2_calc` column: every other column is exactly as before
the call (on the `InvalidColumn` error path even `rank_col2_calc` is
untouched). -/
theorem frame_effect_amended (df : DataFrame) (vars : List String)
    (rank_col1 rank_col2 : String) (top_n : ℕ) (m : String)
    (hm : m ≠ "rank_col2_calc") :
    (summary_statistics df vars).post = df ∧
    (extreme_rank_countries df rank_col1 rank_col2 top_n).post.getCol m =
      df.getCol m := by
  refine ⟨rfl, ?_⟩
  unfold extreme_rank_countries
  by_cases h : rank_col2 ∈ df.columns
  · rw [if_pos h]
    exact getCol_setCol_ne _ _ _ _ hm
  · rw [if_neg h]

theorem frame_effect_amended_witness :
    "rank2" ≠ "rank_col2_calc" ∧
    ((summary_statistics exD ["rank1"]).post = exD ∧
      (extreme_rank_countries exD "rank1" "rank2" 2).post.getCol "rank2" =
        exD.getCol "rank2") :=
  ⟨by decide, frame_effect_amended exD ["rank1"] "rank1" "rank2" 2 "rank2" (by decide)⟩

/-- C4 counterexample: when no requested column is present, the call does
not return an empty table: `describe` on the zero-column selection raises
(pandas `ValueError: Cannot describe a DataFrame without columns`). -/
theorem summary_all_missing_counterexample :
    (summary_statistics dfX ["z"]).result = .error .emptyDescribe ∧
    "z" ∉ dfX.columns := by
  exact ⟨by decide, by decide⟩

/-- C4 amended: if no entry of `vars_of_interest` is a column of the frame,
`summary_statistics` raises (the `describe` call fails on a frame without
columns) instead of returning an empty statistics table. -/
theorem summary_all_missing_raises (df : DataFrame) (vars : List String)
    (h : summaryAvailable df vars = []) :
    (summary_statistics df vars).result = .error .emptyDescribe := by
  unfold summary_statistics describeT summarySel
  rw [h]
  rfl

theorem summary_all_missing_raises_witness :
    summaryAvailable dfX ["z"] = [] ∧
    (summary_statistics dfX ["z"]).result = .error .emptyDescribe :=
  ⟨by decide, summary_all_missing_raises dfX ["z"] (by decide)⟩

/-- C8: `summary_statistics` emits exactly one console warning when some
requested column is absent — carrying the whole set of absent names — and
none when every requested column is present; never one warning per absent
column. -/
theorem summary_warning_once (df : DataFrame) (vars : List String) :
    (summary_statistics df vars).warnings.length =
        (if missingVars df vars = ∅ then 0 else 1) ∧
    (summary_statistics df vars).warnings.head? =
        (if missingVars df vars = ∅ then none else some (missingVars df vars)) ∧
    (missingVars df vars = ∅ ↔ ∀ v ∈ vars, v ∈ df.columns) := by
  refine ⟨?_, ?_, ?_⟩
  · unfold summary_statistics
    by_cases h : missingVars df vars = ∅ <;> simp [h]
  · unfold summary_statistics
    by_cases h : missingVars df vars = ∅ <;> simp [h]
  · unfold missingVars
    rw [List.toFinset_eq_empty_iff, List.filter_eq_nil_iff]
    constructor
    · intro h v hv
      by_contra hmem
      exact h v hv (by simpa using hmem)
    · intro h v hv hd
      rw [decide_eq_true_eq] at hd
      exact hd (h v hv)

theorem summary_warning_once_witness :
    (summary_statistics dfMix ["x", "z"]).warnings.length =
        (if missingVars dfMix ["x", "z"] = ∅ then 0 else 1) ∧
    (summary_statistics dfMix ["x", "z"]).warnings.head? =
        (if missingVars dfMix ["x", "z"] = ∅ then none
          else some (missingVars dfMix ["x", "z"])) ∧
    (missingVars dfMix ["x", "z"] = ∅ ↔ ∀ v ∈ ["x", "z"], v ∈ dfMix.columns) :=
  summary_warning_once dfMix ["x", "z"]

/-- C7: on the spec's example frame `{cname:[A,B,C], rank1:[1,2,3],
rank2:[30,10,20]}`, the derived ranks are `[1,3,2]`, the per-row rank
differences are `[0,-1,1]`, and `top_n = 2` returns exactly the rows
C (difference 1) then A (difference 0), in that order. -/
theorem extreme_example_concrete :
    Col.rankDesc (exD.getColD "rank2") = [1, 3, 2] ∧
    extremeRows (workingFrame exD "rank2") "rank1" =
      [{ idx := 0, cname := .str "A", rank1 := 1, rank_col2_calc := 1,
         rank_difference := 0 },
       { idx := 1, cname := .str "B", rank1 := 2, rank_col2_calc := 3,
         rank_difference := -1 },
       { idx := 2, cname := .str "C", rank1 := 3, rank_col2_calc := 2,
         rank_difference := 1 }] ∧
    extreme_rank_countries exD "rank1" "rank2" 2 =
      ⟨exDPost,
       .ok [{ idx := 2, cname := .str "C", rank1 := 3, rank_col2_calc := 2,
              rank_difference := 1 },
            { idx := 0, cname := .str "A", rank1 := 1, rank_col2_calc := 1,
              rank_difference := 0 }]⟩ := by
  refine ⟨?_, ?_, ?_⟩ <;>
  · simp [exD, exDPost, extreme_rank_countries, workingFrame, extremeBody,
      extremeRows, buildRows, DataFrame.getColD, DataFrame.getCol,
      DataFrame.setCol, DataFrame.columns, List.find?, Col.rankDesc,
      fractionalRankDesc, rkOf, List.countP, List.countP.go, Col.cells,
      Col.asNums, List.range, List.range.loop, List.insertionSort,
      List.orderedInsert]
    norm_num [rowLe]

lemma numsSel_names (l : List String) (df : DataFrame) :
    ((l.map fun v => (v, df.getColD v)).filterMap fun p =>
        match p.2 with
        | .nums xs => some (p.1, xs)
        | .strs _ => none).map Prod.fst
      = l.filter fun v => (df.getColD v).isNums := by
  induction l with
  | nil => rfl
  | cons v t ih =>
    simp only [List.map_cons, List.filterMap_cons, List.filter_cons]
    cases h : df.getColD v with
    | nums xs =>
      simp only [List.filterMap_map] at ih ⊢
      simp [h, Col.isNums, ih]
    | strs ss =>
      simp only [List.filterMap_map] at ih ⊢
      simp [h, Col.isNums, ih]

/-- C3 counterexample: with `D = {x: [1,2], c: ["a","b"]}` and
`L = ["x","c"]`, both requested names are columns of `D`, yet the result has
a row only for `x`: `describe` drops the non-numeric column `c` from a
mixed-dtype selection, so the output does not have one row per column of
`L ∩ columns(D)`. -/
theorem summary_row_per_column_counterexample :
    (summary_statistics dfMix ["x", "c"]).result.map describeNames = .ok ["x"] ∧
    "c" ∈ dfMix.columns ∧ "c" ∈ (["x", "c"] : List String) := by
  refine ⟨?_, by decide, by decide⟩
  simp [summary_statistics, dfMix, describeT, summarySel, summaryAvailable,
    DataFrame.getColD, DataFrame.getCol, DataFrame.columns, List.find?,
    describeNames, Except.map]

/-- C3 amended: provided at least one requested-and-present column is
numeric, `summary_statistics` returns the numeric `describe` table (whose
measure columns are the eight `count, mean, std, min, 25%, 50%, 75%, max`,
the fields of `StatsRow`), with one row for each numeric entry of
`vars_of_interest` that is a column of the frame, in the relative order the
names have in `vars_of_interest`; non-numeric requested columns get no
row. -/
theorem summary_numeric_rows (df : DataFrame) (vars : List String)
    (h : numericAvailable df vars ≠ []) :
    ∃ rows, (summary_statistics df vars).result = .ok (.numeric rows) ∧
      rows.map Prod.fst = numericAvailable df vars := by
  have hnames := numsSel_names (summaryAvailable df vars) df
  unfold summary_statistics
  simp only []
  unfold describeT
  have hnums_ne : ((summarySel df vars).filterMap fun p =>
      match p.2 with
      | .nums xs => some (p.1, xs)
      | .strs _ => none) ≠ [] := by
    intro he
    unfold summarySel at he
    rw [he] at hnames
    exact h (by rw [numericAvailable, ← hnames]; rfl)
  have hsel_ne : ¬(summarySel df vars).isEmpty = true := by
    rw [List.isEmpty_iff]
    intro he
    exact hnums_ne (by rw [he]; rfl)
  rw [if_neg hsel_ne]
  simp only []
  rw [if_neg (by rw [List.isEmpty_iff]; exact hnums_ne)]
  refine ⟨_, rfl, ?_⟩
  rw [List.map_map]
  have : (Prod.fst ∘ fun p : String × List ℚ => (p.1, describeCol p.2)) =
      Prod.fst := rfl
  rw [this]
  unfold summarySel
  rw [hnames]
  rfl

theorem summary_numeric_rows_witness :
    numericAvailable dfMix ["x", "c"] ≠ [] ∧
    ∃ rows, (summary_statistics dfMix ["x", "c"]).result = .ok (.numeric rows) ∧
      rows.map Prod.fst = numericAvailable dfMix ["x", "c"] :=
  ⟨by decide, summary_numeric_rows dfMix ["x", "c"] (by decide)⟩

lemma exW_call :
    extreme_rank_countries exW "r1" "r2" 5 =
      ⟨exWPost,
       .ok [{ idx := 0, cname := .str "A", rank1 := 1, rank_col2_calc := 1,
              rank_difference := 0 }]⟩ := by
  simp [exW, exWPost, extreme_rank_countries, workingFrame, extremeBody,
    extremeRows, buildRows, DataFrame.getColD, DataFrame.getCol,
    DataFrame.setCol, DataFrame.columns, List.find?, Col.rankDesc,
    fractionalRankDesc, rkOf, List.countP, List.countP.go, Col.cells,
    Col.asNums, List.range, List.range.loop, List.insertionSort,
    List.orderedInsert]

/-- C9: both functions are deterministic (equal inputs give equal outputs —
immediate, since the embedding is a function of the input frame), and
`extreme_rank_countries` is idempotent even across its own mutation: after
a successful call, running the call again on the now-mutated frame returns
the same post-frame and the bit-identical result table (the derived column
is simply overwritten with the same values), provided `rank_col2` is not
itself named `rank_col2_calc`. -/
theorem calls_deterministic_idempotent (df : DataFrame) (vars : List String)
    (rank_col1 rank_col2 : String) (top_n : ℕ) (df₁ : DataFrame)
    (res : List ResultRow)
    (hsep : rank_col2 ≠ "rank_col2_calc")
    (hcall : extreme_rank_countries df rank_col1 rank_col2 top_n = ⟨df₁, .ok res⟩) :
    summary_statistics df vars = summary_statistics df vars ∧
    extreme_rank_countries df₁ rank_col1 rank_col2 top_n = ⟨df₁, .ok res⟩ := by
  refine ⟨rfl, ?_⟩
  by_cases hmem : rank_col2 ∈ df.columns
  · unfold extreme_rank_countries at hcall
    rw [if_pos hmem] at hcall
    have h1 : workingFrame df rank_col2 = df₁ := congrArg ExtremeResult.post hcall
    have h2 : extremeBody (workingFrame df rank_col2) rank_col1 top_n = .ok res :=
      congrArg ExtremeResult.result hcall
    have hmem1 : rank_col2 ∈ df₁.columns := by
      rw [← h1]
      unfold workingFrame
      exact mem_columns_setCol_of_mem df _ _ _ hmem
    have hget : df₁.getColD rank_col2 = df.getColD rank_col2 := by
      rw [← h1]
      unfold workingFrame
      exact getColD_setCol_ne _ _ _ _ hsep
    have hwf2 : workingFrame df₁ rank_col2 = df₁ := by
      unfold workingFrame
      rw [hget, ← h1]
      unfold workingFrame
      exact setCol_idem _ _ _
    unfold extreme_rank_countries
    rw [if_pos hmem1, hwf2, ← h1, h2]
  · unfold extreme_rank_countries at hcall
    rw [if_neg hmem] at hcall
    exact absurd (congrArg ExtremeResult.result hcall) (by simp)

theorem calls_deterministic_idempotent_witness :
    "r2" ≠ "rank_col2_calc" ∧
    extreme_rank_countries exW "r1" "r2" 5 =
      ⟨exWPost,
       .ok [{ idx := 0, cname := .str "A", rank1 := 1, rank_col2_calc := 1,
              rank_difference := 0 }]⟩ ∧
    (summary_statistics exW ["r1"] = summary_statistics exW ["r1"] ∧
      extreme_rank_countries exWPost "r1" "r2" 5 =
        ⟨exWPost,
         .ok [{ idx := 0, cname := .str "A", rank1 := 1, rank_col2_calc := 1,
                rank_difference := 0 }]⟩) :=
  ⟨by decide, exW_call,
    calls_deterministic_idempotent exW ["r1"] "r1" "r2" 5 exWPost _
      (by decide) exW_call⟩

lemma sum_map_getD {α : Type} (f : α → ℚ) (d : α) (xs : List α) :
    (xs.map f).sum = ∑ i ∈ Finset.range xs.length, f (xs.getD i d) := by
  induction xs with
  | nil => simp
  | cons a t ih =>
    rw [List.map_cons, List.sum_cons, ih, List.length_cons, Finset.sum_range_succ']
    simp [List.getD_cons_succ, List.getD_cons_zero, add_comm]

lemma countP_cast_sum {α : Type} (p : α → Bool) (d : α) (xs : List α) :
    ((xs.countP p : ℕ) : ℚ) =
      ∑ i ∈ Finset.range xs.length, if p (xs.getD i d) then (1 : ℚ) else 0 := by
  rw [← sum_map_getD (fun y => if p y then (1 : ℚ) else 0) d xs]
  induction xs with
  | nil => simp
  | cons a t ih =>
    rw [List.countP_cons, List.map_cons, List.sum_cons]
    by_cases h : p a = true
    · simp only [h, if_true]
      push_cast
      rw [ih]
      ring
    · simp only [h, if_false]
      push_cast
      rw [ih]
      ring

lemma rank_double_count {α : Type} [LinearOrder α] (n : ℕ) (x : ℕ → α) :
    (∑ i ∈ Finset.range n,
      ((∑ j ∈ Finset.range n, if x i < x j then (1 : ℚ) else 0) +
        ((∑ j ∈ Finset.range n, if x j = x i then (1 : ℚ) else 0) + 1) / 2)) =
    (n : ℚ) * ((n : ℚ) + 1) / 2 := by
  have htri : ∀ i j : ℕ,
      (if x i < x j then (1 : ℚ) else 0) + (if x j < x i then (1 : ℚ) else 0) +
        (if x j = x i then (1 : ℚ) else 0) = 1 := by
    intro i j
    rcases lt_trichotomy (x i) (x j) with h | h | h
    · rw [if_pos h, if_neg (asymm h), if_neg (fun e : x j = x i => h.ne e.symm)]
      norm_num
    · rw [if_neg (fun e => e.ne h), if_neg (fun e => e.ne h.symm), if_pos h.symm]
      norm_num
    · rw [if_neg (asymm h), if_pos h, if_neg (fun e : x j = x i => h.ne e)]
      norm_num
  have hswap : (∑ i ∈ Finset.range n, ∑ j ∈ Finset.range n,
        if x i < x j then (1 : ℚ) else 0) =
      ∑ i ∈ Finset.range n, ∑ j ∈ Finset.range n,
        if x j < x i then (1 : ℚ) else 0 := Finset.sum_comm
  have hdouble : (∑ i ∈ Finset.range n, ∑ j ∈ Finset.range n,
        ((if x i < x j then (1 : ℚ) else 0) + (if x j < x i then (1 : ℚ) else 0) +
          (if x j = x i then (1 : ℚ) else 0))) = (n : ℚ) * n := by
    rw [Finset.sum_congr rfl fun i _ => Finset.sum_congr rfl fun j _ => htri i j]
    simp [Finset.sum_const, Finset.card_range, mul_comm]
  have hsplit : (∑ i ∈ Finset.range n, ∑ j ∈ Finset.range n,
        ((if x i < x j then (1 : ℚ) else 0) + (if x j < x i then (1 : ℚ) else 0) +
          (if x j = x i then (1 : ℚ) else 0))) =
      (∑ i ∈ Finset.range n, ∑ j ∈ Finset.range n, if x i < x j then (1 : ℚ) else 0) +
      (∑ i ∈ Finset.range n, ∑ j ∈ Finset.range n, if x j < x i then (1 : ℚ) else 0) +
      (∑ i ∈ Finset.range n, ∑ j ∈ Finset.range n, if x j = x i then (1 : ℚ) else 0) := by
    simp [Finset.sum_add_distrib]
  have h2 : 2 * (∑ i ∈ Finset.range n, ∑ j ∈ Finset.range n,
        if x i < x j then (1 : ℚ) else 0) +
      (∑ i ∈ Finset.range n, ∑ j ∈ Finset.range n, if x j = x i then (1 : ℚ) else 0) =
      (n : ℚ) * n := by
    rw [two_mul]
    nth_rewrite 2 [hswap]
    rw [← hsplit, hdouble]
  have hE : (∑ i ∈ Finset.range n,
        ((∑ j ∈ Finset.range n, if x j = x i then (1 : ℚ) else 0) + 1) / 2) =
      ((∑ i ∈ Finset.range n, ∑ j ∈ Finset.range n,
          if x j = x i then (1 : ℚ) else 0) + n) / 2 := by
    rw [← Finset.sum_div, Finset.sum_add_distrib]
    simp [Finset.card_range]
  rw [Finset.sum_add_distrib, hE]
  have hfin : (∑ i ∈ Finset.range n, ∑ j ∈ Finset.range n,
        if x i < x j then (1 : ℚ) else 0) +
      ((∑ i ∈ Finset.range n, ∑ j ∈ Finset.range n,
          if x j = x i then (1 : ℚ) else 0) + n) / 2 =
      (2 * (∑ i ∈ Finset.range n, ∑ j ∈ Finset.range n,
          if x i < x j then (1 : ℚ) else 0) +
        (∑ i ∈ Finset.range n, ∑ j ∈ Finset.range n,
          if x j = x i then (1 : ℚ) else 0) + n) / 2 := by
    ring
  rw [hfin, h2]
  ring

lemma fracRank_sum {α : Type} [LinearOrder α] (d : α) (xs : List α) :
    (fractionalRankDesc xs).sum = (xs.length : ℚ) * ((xs.length : ℚ) + 1) / 2 := by
  unfold fractionalRankDesc
  rw [sum_map_getD (rkOf xs) d xs]
  have hcongr : ∀ i ∈ Finset.range xs.length, rkOf xs (xs.getD i d) =
      (∑ j ∈ Finset.range xs.length,
        if xs.getD i d < xs.getD j d then (1 : ℚ) else 0) +
      ((∑ j ∈ Finset.range xs.length,
          if xs.getD j d = xs.getD i d then (1 : ℚ) else 0) + 1) / 2 := by
    intro i _
    unfold rkOf
    rw [countP_cast_sum _ d, countP_cast_sum _ d]
    simp
  rw [Finset.sum_congr rfl hcongr]
  exact rank_double_count xs.length fun i => xs.getD i d

lemma fracRank_tie (xs : List ℚ) (i j : ℕ) (hi : i < xs.length)
    (hj : j < xs.length) (h : xs.getD i 0 = xs.getD j 0) :
    (fractionalRankDesc xs).getD i 0 = (fractionalRankDesc xs).getD j 0 := by
  have hi2 : i < (fractionalRankDesc xs).length := by
    simpa [fractionalRankDesc] using hi
  have hj2 : j < (fractionalRankDesc xs).length := by
    simpa [fractionalRankDesc] using hj
  rw [List.getD_eq_getElem _ _ hi2, List.getD_eq_getElem _ _ hj2]
  rw [List.getD_eq_getElem _ _ hi, List.getD_eq_getElem _ _ hj] at h
  unfold fractionalRankDesc
  rw [List.getElem_map, List.getElem_map, h]

lemma fracRank_top (xs : List ℚ) (i : ℕ) (hi : i < xs.length)
    (hmax : ∀ y ∈ xs, y ≤ xs.getD i 0) (huniq : xs.count (xs.getD i 0) = 1) :
    (fractionalRankDesc xs).getD i 0 = 1 := by
  have hi2 : i < (fractionalRankDesc xs).length := by
    simpa [fractionalRankDesc] using hi
  rw [List.getD_eq_getElem _ _ hi2]
  unfold fractionalRankDesc
  rw [List.getElem_map]
  have hx : xs[i] = xs.getD i 0 := (List.getD_eq_getElem xs 0 hi).symm
  unfold rkOf
  have h1 : (xs.countP fun y => decide (xs[i] < y)) = 0 := by
    rw [List.countP_eq_zero]
    intro y hy
    simp only [decide_eq_true_eq]
    rw [hx]
    exact not_lt.mpr (hmax y hy)
  have h2 : (xs.countP fun y => decide (y = xs[i])) = 1 := by
    have hc : (xs.countP fun y => decide (y = xs[i])) = xs.count xs[i] := by
      rw [List.count_eq_countP]
      refine List.countP_congr fun y _ => ?_
      by_cases h : y = xs[i] <;> simp [h]
    rw [hc, hx, huniq]
  rw [h1, h2]
  norm_num

/-- C6: the rank that `extreme_rank_countries` derives from `rank_col2`
(`Series.rank(ascending=False)`, method `average`) is a valid descending
fractional ranking: over any column of n rows the ranks sum to
`n (n + 1) / 2`; tied values receive identical (averaged) ranks; and a
value that is the unique maximum of a numeric column receives rank 1. -/
theorem derived_rank_valid_fractional :
    (∀ c : Col, (Col.rankDesc c).sum = (c.length : ℚ) * ((c.length : ℚ) + 1) / 2) ∧
    (∀ (xs : List ℚ) (i j : ℕ), i < xs.length → j < xs.length →
      xs.getD i 0 = xs.getD j 0 →
      (fractionalRankDesc xs).getD i 0 = (fractionalRankDesc xs).getD j 0) ∧
    (∀ (xs : List ℚ) (i : ℕ), i < xs.length →
      (∀ y ∈ xs, y ≤ xs.getD i 0) → xs.count (xs.getD i 0) = 1 →
      (fractionalRankDesc xs).getD i 0 = 1) := by
  refine ⟨?_, fracRank_tie, fracRank_top⟩
  intro c
  cases c with
  | nums xs => simpa [Col.rankDesc, Col.length] using fracRank_sum 0 xs
  | strs ss => simpa [Col.rankDesc, Col.length] using fracRank_sum "" ss

theorem derived_rank_valid_fractional_witness :
    (0 < 2 ∧ 1 < 2 ∧ ([5, 5] : List ℚ).getD 0 0 = ([5, 5] : List ℚ).getD 1 0) ∧
    (fractionalRankDesc ([5, 5] : List ℚ)).getD 0 0 =
      (fractionalRankDesc ([5, 5] : List ℚ)).getD 1 0 :=
  ⟨⟨by norm_num, by norm_num, by norm_num⟩,
    derived_rank_valid_fractional.2.1 [5, 5] 0 1 (by norm_num) (by norm_num)
      (by norm_num)⟩


lemma rkOf_replicate (n : ℕ) (q : ℚ) :
    rkOf (List.replicate n q) q = ((n : ℚ) + 1) / 2 := by
  unfold rkOf
  rw [List.countP_replicate, List.countP_replicate]
  simp

lemma fracRank_replicate (n : ℕ) (q : ℚ) :
    fractionalRankDesc (List.replicate n q) =
      List.replicate n (((n : ℚ) + 1) / 2) := by
  unfold fractionalRankDesc
  rw [List.map_replicate, rkOf_replicate]

/-- C5: the failing input for the stable-tie-break requirement.  On `dfTie`
(20 rows, above numpy's insertion-sort threshold) the working projection of
`extreme_rank_countries(dfTie, "rank1", "rank2", top_n)` has twenty rows
whose `rank_difference` values are all tied (every one equals
`1 - 21/2`), so the order of the returned rows is determined solely by the
tie-breaking of `sort_values('rank_difference', ascending=False)` — and the
code's default `kind='quicksort'` guarantees no tie order there, while the
claim (and the spec's step 4) require ties broken by original row order via
a stable sort. -/
theorem extreme_tie_regime_failing_input :
    (extremeRows (workingFrame dfTie "rank2") "rank1").length = 20 ∧
    (extremeRows (workingFrame dfTie "rank2") "rank1").map
        ResultRow.rank_difference =
      List.replicate 20 (1 - (20 + 1) / 2) := by
  have hcn : (workingFrame dfTie "rank2").getColD "cname" =
      .strs (List.replicate 20 "X") := by
    unfold workingFrame
    rw [getColD_setCol_ne _ _ _ _ (by decide)]
    rfl
  have hr1 : (workingFrame dfTie "rank2").getColD "rank1" =
      .nums (List.replicate 20 1) := by
    unfold workingFrame
    rw [getColD_setCol_ne _ _ _ _ (by decide)]
    rfl
  have hrc : (workingFrame dfTie "rank2").getColD "rank_col2_calc" =
      .nums (List.replicate 20 ((20 + 1) / 2)) := by
    unfold workingFrame
    rw [getColD_setCol_self]
    have h2 : dfTie.getColD "rank2" = Col.nums (List.replicate 20 7) := rfl
    rw [h2]
    show Col.nums (fractionalRankDesc (List.replicate 20 (7 : ℚ))) = _
    rw [fracRank_replicate]
    norm_num
  unfold extremeRows
  rw [hcn, hr1, hrc]
  simp only [Col.cells, Col.asNums, List.map_replicate]
  unfold buildRows
  simp only [List.length_replicate, Nat.min_self]
  constructor
  · simp
  · rw [List.map_map, List.eq_replicate_iff]
    constructor
    · simp
    · intro b hb
      obtain ⟨i, hi, rfl⟩ := List.mem_map.mp hb
      rw [List.mem_range] at hi
      simp only [Function.comp]
      rw [List.getD_eq_getElem _ _ (by simpa using hi),
        List.getD_eq_getElem _ _ (by simpa using hi),
        List.getElem_replicate, List.getElem_replicate]
